import Mathlib

/-!
A shallow embedding of the group-hierarchy resolution and assignment-aggregation
engine of `intune-explorer.py`, with theorems checking the specification's
claims against it.

Tables are lists of rows in insertion order; SQL `SELECT ... WHERE col = ?`
becomes `List.filter` over the rows, preserving order, exactly as SQLite
returns rows of these unindexed tables. The recursive SQL walks in the source
have no termination guard, so they are embedded with an explicit fuel
parameter: a `none` result means the fuel ran out, and a run of the source
terminates precisely when some fuel yields `some`.
-/

/-- A membership edge `(parent_id, child_id)`: one row of the `memberships`
table, meaning the parent group contains the child group as a member. -/
abbrev Edges := List (String × String)

/-- The cached snapshot database: one field per table created by
`Database.reload`. `groups` and the artifact tables hold `(id, display_name)`
rows; assignment tables hold `(artifact_id, group_id)` rows, and
`app_assignments` holds `(app_id, group_id, intent)` rows. -/
structure DB where
  groups : List (String × String)
  memberships : Edges
  apps : List (String × String)
  app_assignments : List (String × String × String)
  scripts : List (String × String)
  script_assignments : List (String × String)
  device_compliance_policies : List (String × String)
  device_compliance_policy_assignments : List (String × String)
  configuration_policies : List (String × String)
  configuration_policy_assignments : List (String × String)
  group_policies : List (String × String)
  group_policy_assignments : List (String × String)
  device_configuration_profiles : List (String × String)
  device_configuration_profile_assignments : List (String × String)
  windows_deployment_profiles : List (String × String)
  windows_deployment_profile_assignments : List (String × String)
  intent_profiles : List (String × String)
  intent_profile_assignments : List (String × String)

/-- `SELECT parent_id FROM memberships WHERE child_id = g`, in row order. -/
def parentsOf (edges : Edges) (g : String) : List String :=
  (edges.filter (fun e => e.2 == g)).map (fun e => e.1)

/-- `SELECT child_id FROM memberships WHERE parent_id = g`, in row order. -/
def childrenOf (edges : Edges) (g : String) : List String :=
  (edges.filter (fun e => e.1 == g)).map (fun e => e.2)

/-- Fuel-indexed embedding of the unguarded recursive walk shared by
`Database.get_parent_groups` and `Database.get_child_groups`: for each
successor `p` of `g` (in row order) the source appends `[p] ++ walk(p)`;
`none` means the fuel ran out somewhere in the traversal. -/
def walk (succs : String → List String) : Nat → String → Option (List String)
  | 0, _ => none
  | n+1, g =>
    (succs g).foldr
      (fun p acc =>
        match walk succs n p, acc with
        | some sub, some tl => some (p :: (sub ++ tl))
        | _, _ => none)
      (some [])

/-- The successor rows of one `walk` step, processed sequentially. -/
def walkRows (succs : String → List String) (n : Nat) : List String → Option (List String)
  | [] => some []
  | p :: rest =>
    match walk succs n p, walkRows succs n rest with
    | some sub, some tl => some (p :: (sub ++ tl))
    | _, _ => none

theorem walk_succ (succs : String → List String) (n : Nat) (g : String) :
    walk succs (n + 1) g = walkRows succs n (succs g) := by
  show List.foldr _ _ (succs g) = _
  induction succs g with
  | nil => rfl
  | cons p rest ih => rw [List.foldr_cons, walkRows, ih]

/-- `Database.get_parent_groups`, fuel-indexed. -/
def get_parent_groups (edges : Edges) (fuel : Nat) (group_id : String) : Option (List String) :=
  walk (parentsOf edges) fuel group_id

/-- `Database.get_child_groups`, fuel-indexed. -/
def get_child_groups (edges : Edges) (fuel : Nat) (group_id : String) : Option (List String) :=
  walk (childrenOf edges) fuel group_id

/-- Shared shape of the `get_*_name` lookups: first row with the given id, or
the `"?"` placeholder when no row matches. -/
def lookup_display_name (table : List (String × String)) (id : String) : String :=
  match table.find? (fun r => r.1 == id) with
  | some r => r.2
  | none => "?"

/-- `Database.get_group_id`: first group row with the given display name, or
`None`. -/
def get_group_id (db : DB) (group_name : String) : Option String :=
  match db.groups.find? (fun r => r.2 == group_name) with
  | some r => some r.1
  | none => none

/-- `Database.get_group_name`. -/
def get_group_name (db : DB) (group_id : String) : String :=
  lookup_display_name db.groups group_id

/-- `Database.get_app_name`. -/
def get_app_name (db : DB) (app_id : String) : String :=
  lookup_display_name db.apps app_id

/-- `Database.get_script_name`. -/
def get_script_name (db : DB) (script_id : String) : String :=
  lookup_display_name db.scripts script_id

/-- `Database.get_device_compliance_policy_name`. -/
def get_device_compliance_policy_name (db : DB) (policy_id : String) : String :=
  lookup_display_name db.device_compliance_policies policy_id

/-- `Database.get_configuration_policy_name`. -/
def get_configuration_policy_name (db : DB) (policy_id : String) : String :=
  lookup_display_name db.configuration_policies policy_id

/-- `Database.get_group_policy_name`. -/
def get_group_policy_name (db : DB) (policy_id : String) : String :=
  lookup_display_name db.group_policies policy_id

/-- `Database.get_device_configuration_profile_name`. -/
def get_device_configuration_profile_name (db : DB) (profile_id : String) : String :=
  lookup_display_name db.device_configuration_profiles profile_id

/-- `Database.get_windows_deployment_profile_name`. -/
def get_windows_deployment_profile_name (db : DB) (profile_id : String) : String :=
  lookup_display_name db.windows_deployment_profiles profile_id

/-- `Database.get_intent_profile_name`. -/
def get_intent_profile_name (db : DB) (profile_id : String) : String :=
  lookup_display_name db.intent_profiles profile_id

/-- Python dict assignment `d[k] = v`: replace the value in place at the first
occurrence of the key, else append the new key at the end. -/
def upsert (k : String) (v : String × String) :
    List (String × String × String) → List (String × String × String)
  | [] => [(k, v)]
  | e :: rest => if e.1 == k then (k, v) :: rest else e :: upsert k v rest

/-- `Database.get_app_assignments`: a dict keyed by app id, built row by row,
each row storing `{intent, group_id}`; a later row for the same app id
overwrites the value. Entries are `(app_id, intent, group_id)`. -/
def get_app_assignments (db : DB) (group_id : String) : List (String × String × String) :=
  (db.app_assignments.filter (fun r => r.2.1 == group_id)).foldl
    (fun acc r => upsert r.1 (r.2.2, group_id) acc) []

/-- `Database.get_script_assignments`: a plain list of the matching rows'
artifact ids, duplicates preserved. -/
def get_script_assignments (db : DB) (group_id : String) : List String :=
  (db.script_assignments.filter (fun r => r.2 == group_id)).map (fun r => r.1)

/-- `Database.get_device_compliance_policy_assignments`. -/
def get_device_compliance_policy_assignments (db : DB) (group_id : String) : List String :=
  (db.device_compliance_policy_assignments.filter (fun r => r.2 == group_id)).map (fun r => r.1)

/-- `Database.get_configuration_policy_assignments`. -/
def get_configuration_policy_assignments (db : DB) (group_id : String) : List String :=
  (db.configuration_policy_assignments.filter (fun r => r.2 == group_id)).map (fun r => r.1)

/-- `Database.get_group_policy_assignments`. -/
def get_group_policy_assignments (db : DB) (group_id : String) : List String :=
  (db.group_policy_assignments.filter (fun r => r.2 == group_id)).map (fun r => r.1)

/-- `Database.get_device_configuration_profile_assignments`. -/
def get_device_configuration_profile_assignments (db : DB) (group_id : String) : List String :=
  (db.device_configuration_profile_assignments.filter (fun r => r.2 == group_id)).map (fun r => r.1)

/-- `Database.get_windows_deployment_profile_assignments`. -/
def get_windows_deployment_profile_assignments (db : DB) (group_id : String) : List String :=
  (db.windows_deployment_profile_assignments.filter (fun r => r.2 == group_id)).map (fun r => r.1)

/-- `Database.get_intent_profile_assignments`. -/
def get_intent_profile_assignments (db : DB) (group_id : String) : List String :=
  (db.intent_profile_assignments.filter (fun r => r.2 == group_id)).map (fun r => r.1)

/-- Python `str.upper()`, applied per character (ASCII letters). -/
def upper (s : String) : String :=
  String.mk (s.data.map Char.toUpper)

/-- Python `level * "-"`. -/
def dashes : Nat → String
  | 0 => ""
  | n+1 => "-" ++ dashes n

/-- `list(dict.fromkeys(ids))`: de-duplicate keeping first occurrences. -/
def dedupFirstAux : List String → List String → List String
  | _, [] => []
  | seen, x :: xs =>
    if x ∈ seen then dedupFirstAux seen xs
    else x :: dedupFirstAux (x :: seen) xs

/-- `list(dict.fromkeys(ids))` as used on the parent and child id lists. -/
def dedupFirst (l : List String) : List String :=
  dedupFirstAux [] l

/-- Fuel-indexed embedding of the indented hierarchy printers
(`print_parent_groups_hierarchy` / `print_child_groups_hierarchy`): one output
line `level * "-" + " " + name` per visited group, depth first. -/
def hier (succs : String → List String) (name_of : String → String) :
    Nat → String → Nat → Option (List String)
  | 0, _, _ => none
  | n+1, g, level =>
    (succs g).foldr
      (fun p acc =>
        match hier succs name_of n p (level + 1), acc with
        | some sub, some tl => some ((dashes level ++ " " ++ name_of p) :: (sub ++ tl))
        | _, _ => none)
      (some [])

/-- The successor rows of one `hier` step, processed sequentially. -/
def hierRows (succs : String → List String) (name_of : String → String) (n : Nat) :
    List String → Nat → Option (List String)
  | [], _ => some []
  | p :: rest, level =>
    match hier succs name_of n p (level + 1), hierRows succs name_of n rest level with
    | some sub, some tl => some ((dashes level ++ " " ++ name_of p) :: (sub ++ tl))
    | _, _ => none

theorem hier_succ (succs : String → List String) (name_of : String → String) (n : Nat)
    (g : String) (level : Nat) :
    hier succs name_of (n + 1) g level = hierRows succs name_of n (succs g) level := by
  show List.foldr _ _ (succs g) = _
  induction succs g with
  | nil => rfl
  | cons p rest ih => rw [List.foldr_cons, hierRows, ih]

/-- `Database.print_parent_groups_hierarchy`, fuel-indexed, returning the
printed lines. -/
def print_parent_groups_hierarchy (db : DB) (fuel : Nat) (group_id : String) (level : Nat) :
    Option (List String) :=
  hier (parentsOf db.memberships) (get_group_name db) fuel group_id level

/-- `Database.print_child_groups_hierarchy`, fuel-indexed, returning the
printed lines. -/
def print_child_groups_hierarchy (db : DB) (fuel : Nat) (group_id : String) (level : Nat) :
    Option (List String) :=
  hier (childrenOf db.memberships) (get_group_name db) fuel group_id level

/-- The rendered App lines of `show_group_summary`: direct assignments first,
then one batch per (de-duplicated) ancestor, in order. -/
def app_lines (db : DB) (group_id : String) (parent_ids : List String) : List String :=
  ((get_app_assignments db group_id).map (fun a =>
    "- " ++ get_app_name db a.1 ++ " (" ++ a.1 ++ ") " ++ "[" ++ upper a.2.1
      ++ "] (directly assigned)"))
  ++ parent_ids.flatMap (fun pid =>
    (get_app_assignments db pid).map (fun a =>
      "- " ++ get_app_name db a.1 ++ " (" ++ a.1 ++ ") " ++ "[" ++ upper a.2.1
        ++ "] (via " ++ get_group_name db pid ++ ")"))

/-- The rendered lines of every non-App artifact section of
`show_group_summary` (scripts, policies, profiles): same shape as the App
lines but with no intent segment. -/
def plain_lines (name_of : String → String) (assignments_of : String → List String)
    (group_name_of : String → String) (group_id : String) (parent_ids : List String) :
    List String :=
  ((assignments_of group_id).map (fun aid =>
    "- " ++ name_of aid ++ " (" ++ aid ++ ")" ++ " (directly assigned)"))
  ++ parent_ids.flatMap (fun pid =>
    (assignments_of pid).map (fun aid =>
      "- " ++ name_of aid ++ " (" ++ aid ++ ")" ++ " (via " ++ group_name_of pid ++ ")"))

/-- The shared tail of every artifact section: `sorted(lines)` when the
collection is nonempty, else the literal `"None"`. -/
def render_section (lines : List String) : List String :=
  if lines.length ≠ 0 then List.insertionSort (fun a b => a ≤ b) lines else ["None"]

/-- The `=== MEMBER OF ===` block of `show_group_summary`. -/
def member_of_section (db : DB) (fuel : Nat) (group_id : String) (parent_ids : List String) :
    Option (List String) :=
  if parent_ids.length = 0 then some ["=== MEMBER OF ===", "None", ""]
  else
    match print_parent_groups_hierarchy db fuel group_id 1 with
    | some h => some ("=== MEMBER OF ===" :: (h ++ [""]))
    | none => none

/-- The `=== MEMBERS ===` block of `show_group_summary`. -/
def members_section (db : DB) (fuel : Nat) (group_id : String) (child_ids : List String) :
    Option (List String) :=
  if child_ids.length = 0 then some ["=== MEMBERS ===", "None", ""]
  else
    match print_child_groups_hierarchy db fuel group_id 1 with
    | some h => some ("=== MEMBERS ===" :: (h ++ [""]))
    | none => none

/-- The `=== APPLICATIONS ===` block: when the beta API is disabled the source
first prints an explanatory note. -/
def app_section (db : DB) (beta : Bool) (group_id : String) (parent_ids : List String) :
    List String :=
  ["=== APPLICATIONS ==="]
  ++ (if beta then []
      else ["(Office, Edge and possibly other 'built-in' apps are not shown, because the beta API is not enabled.)"])
  ++ render_section (app_lines db group_id parent_ids) ++ [""]

/-- A titled non-App artifact section. -/
def plain_section (title : String) (name_of : String → String)
    (assignments_of : String → List String) (group_name_of : String → String)
    (group_id : String) (parent_ids : List String) : List String :=
  title :: (render_section (plain_lines name_of assignments_of group_name_of group_id parent_ids)
    ++ [""])

/-- The scripts section (shown only when the beta API is enabled). -/
def script_section (db : DB) (group_id : String) (parent_ids : List String) : List String :=
  plain_section "=== SCRIPTS (via beta API) ===" (get_script_name db)
    (get_script_assignments db) (get_group_name db) group_id parent_ids

/-- The device compliance policies section. -/
def device_compliance_section (db : DB) (group_id : String) (parent_ids : List String) :
    List String :=
  plain_section "=== DEVICE COMPLIANCE POLICIES ===" (get_device_compliance_policy_name db)
    (get_device_compliance_policy_assignments db) (get_group_name db) group_id parent_ids

/-- The configuration policies section (beta only). -/
def configuration_policy_section (db : DB) (group_id : String) (parent_ids : List String) :
    List String :=
  plain_section "=== CONFIGURATION POLICIES (via beta API) ===" (get_configuration_policy_name db)
    (get_configuration_policy_assignments db) (get_group_name db) group_id parent_ids

/-- The group policies section (beta only). -/
def group_policy_section (db : DB) (group_id : String) (parent_ids : List String) : List String :=
  plain_section "=== GROUP POLICIES (via beta API) ===" (get_group_policy_name db)
    (get_group_policy_assignments db) (get_group_name db) group_id parent_ids

/-- The device configuration profiles section. -/
def device_configuration_profile_section (db : DB) (group_id : String) (parent_ids : List String) :
    List String :=
  plain_section "=== DEVICE CONFIGURATION PROFILES ===" (get_device_configuration_profile_name db)
    (get_device_configuration_profile_assignments db) (get_group_name db) group_id parent_ids

/-- The intent profiles section (beta only). -/
def intent_profile_section (db : DB) (group_id : String) (parent_ids : List String) :
    List String :=
  plain_section "=== INTENT PROFILES (via beta API) ===" (get_intent_profile_name db)
    (get_intent_profile_assignments db) (get_group_name db) group_id parent_ids

/-- The windows deployment profiles section (beta only). -/
def windows_deployment_profile_section (db : DB) (group_id : String) (parent_ids : List String) :
    List String :=
  plain_section "=== WINDOWS DEPLOYMENT PROFILES (via beta API) ==="
    (get_windows_deployment_profile_name db)
    (get_windows_deployment_profile_assignments db) (get_group_name db) group_id parent_ids

/-- `Database.show_group_summary` as the list of printed lines (a `print()`
with no argument is the empty line). The Python guard `if group_id:` skips the
whole body when the lookup returned `None` or the falsy empty string. A `none`
result means one of the unguarded recursive walks ran forever. -/
def show_group_summary (db : DB) (beta : Bool) (fuel : Nat) (group_name : String) :
    Option (List String) :=
  match get_group_id db group_name with
  | none => some []
  | some gid =>
    if gid = "" then some []
    else
      match get_parent_groups db.memberships fuel gid with
      | none => none
      | some ps =>
        match get_child_groups db.memberships fuel gid with
        | none => none
        | some cs =>
          let parent_ids := dedupFirst ps
          let child_ids := dedupFirst cs
          match member_of_section db fuel gid parent_ids with
          | none => none
          | some mo =>
            match members_section db fuel gid child_ids with
            | none => none
            | some mem =>
              some (["GROUP NAME:\t" ++ group_name, "ID:\t\t" ++ gid, ""]
                ++ mo ++ mem
                ++ app_section db beta gid parent_ids
                ++ (if beta then script_section db gid parent_ids else [])
                ++ device_compliance_section db gid parent_ids
                ++ (if beta then configuration_policy_section db gid parent_ids else [])
                ++ (if beta then group_policy_section db gid parent_ids else [])
                ++ device_configuration_profile_section db gid parent_ids
                ++ (if beta then intent_profile_section db gid parent_ids else [])
                ++ (if beta then windows_deployment_profile_section db gid parent_ids else []))

/-- Outcome of `GraphAPI.get_token`: a bearer token, a `print` of a diagnostic
followed by `exit(code)`, or an uncaught `KeyError` (when the failing response
also lacks an `error_description` field). -/
inductive TokenResult where
  | token (value : String)
  | exitWith (code : Nat) (printed : String)
  | keyError
deriving DecidableEq

/-- `GraphAPI.get_token`, applied to the JSON token response viewed as a
key-value map: return `response["access_token"]`; on a `KeyError`, print
`response["error_description"]` and `exit(0)`. -/
def get_token (response : List (String × String)) : TokenResult :=
  match response.lookup "access_token" with
  | some t => TokenResult.token t
  | none =>
    match response.lookup "error_description" with
    | some msg => TokenResult.exitWith 0 msg
    | none => TokenResult.keyError

/-- `child memberOf parent`: the membership table has an edge making `parent`
directly contain `child`. -/
def memberOf (edges : Edges) (child parent : String) : Prop :=
  (parent, child) ∈ edges

/-- The membership graph has no directed cycle. -/
def AcyclicMembership (edges : Edges) : Prop :=
  ∀ a, ¬ Relation.TransGen (memberOf edges) a a

/-- One traversal step of the walk: `b` is among the successors of `a`. -/
def stepRel (succs : String → List String) (a b : String) : Prop :=
  b ∈ succs a

theorem walk_sound (succs : String → List String) :
    ∀ n g l, walk succs n g = some l →
      ∀ p ∈ l, Relation.TransGen (stepRel succs) g p := by
  intro n
  induction n with
  | zero => intro g l h; simp [walk] at h
  | succ n ih =>
    intro g l h
    rw [walk_succ] at h
    have aux : ∀ rows l, (∀ p ∈ rows, p ∈ succs g) → walkRows succs n rows = some l →
        ∀ p ∈ l, Relation.TransGen (stepRel succs) g p := by
      intro rows
      induction rows with
      | nil =>
        intro l _ h p hp
        rw [walkRows] at h
        cases h
        simp at hp
      | cons q rest ihr =>
        intro l hsub h p hp
        rw [walkRows] at h
        cases hq : walk succs n q with
        | none => rw [hq] at h; simp at h
        | some sub =>
          cases hrest : walkRows succs n rest with
          | none => rw [hq, hrest] at h; simp at h
          | some tl =>
            rw [hq, hrest] at h
            simp only [Option.some.injEq] at h
            subst h
            have hstep : stepRel succs g q := hsub q (by simp)
            rcases List.mem_cons.mp hp with rfl | hp'
            · exact Relation.TransGen.single hstep
            · rcases List.mem_append.mp hp' with hps | hpt
              · exact Relation.TransGen.head hstep (ih q sub hq p hps)
              · exact ihr tl (fun x hx => hsub x (by simp [hx])) hrest p hpt
    exact aux (succs g) l (fun p hp => hp) h

theorem walkRows_subcall (succs : String → List String) (n : Nat) :
    ∀ rows l, walkRows succs n rows = some l →
      ∀ p ∈ rows, p ∈ l ∧ ∃ sub, walk succs n p = some sub ∧ ∀ x ∈ sub, x ∈ l := by
  intro rows
  induction rows with
  | nil => intro l _ p hp; simp at hp
  | cons q rest ihr =>
    intro l h p hp
    rw [walkRows] at h
    cases hq : walk succs n q with
    | none => rw [hq] at h; simp at h
    | some sub =>
      cases hrest : walkRows succs n rest with
      | none => rw [hq, hrest] at h; simp at h
      | some tl =>
        rw [hq, hrest] at h
        simp only [Option.some.injEq] at h
        subst h
        rcases List.mem_cons.mp hp with rfl | hp'
        · exact ⟨by simp, sub, hq, fun x hx => by simp [hx]⟩
        · obtain ⟨hmem, sub', hsub', hss⟩ := ihr tl hrest p hp'
          exact ⟨by simp [hmem], sub', hsub', fun x hx => by simp [hss x hx]⟩

theorem walk_subcall (succs : String → List String) (n : Nat) (g : String) (l : List String)
    (h : walk succs (n + 1) g = some l) :
    ∀ p ∈ succs g, p ∈ l ∧ ∃ sub, walk succs n p = some sub ∧ ∀ x ∈ sub, x ∈ l := by
  rw [walk_succ] at h
  exact walkRows_subcall succs n (succs g) l h

theorem walk_complete (succs : String → List String) {g p : String}
    (h : Relation.TransGen (stepRel succs) g p) :
    ∀ n l, walk succs n g = some l → p ∈ l := by
  induction h using Relation.TransGen.head_induction_on with
  | base hstep =>
    intro n l hw
    cases n with
    | zero => simp [walk] at hw
    | succ n => exact (walk_subcall succs n _ l hw p hstep).1
  | ih hstep _ ihp =>
    intro n l hw
    cases n with
    | zero => simp [walk] at hw
    | succ n =>
      obtain ⟨_, sub, hsub, hss⟩ := walk_subcall succs n _ l hw _ hstep
      exact hss p (ihp n sub hsub)

theorem chain_mem_transGen (r : String → String → Prop) :
    ∀ l a x, List.Chain r a l → x ∈ l → Relation.TransGen r a x := by
  intro l
  induction l with
  | nil => simp
  | cons b t ih =>
    intro a x hc hx
    rw [List.chain_cons] at hc
    rcases List.mem_cons.mp hx with rfl | hx'
    · exact Relation.TransGen.single hc.1
    · exact Relation.TransGen.head hc.1 (ih b x hc.2 hx')

theorem chain_dup_cycle (r : String → String → Prop) :
    ∀ l a x, List.Chain r a l → List.Sublist [x, x] l → Relation.TransGen r x x := by
  intro l
  induction l with
  | nil => intro a x _ hs; simp at hs
  | cons b t ih =>
    intro a x hc hs
    rw [List.chain_cons] at hc
    rcases List.sublist_cons_iff.mp hs with hs' | ⟨tail, htail, hts⟩
    · exact ih b x hc.2 hs'
    · have hb : b = x := by injection htail with h1 _; exact h1.symm
      have ht2 : tail = [x] := by injection htail with _ h2; exact h2.symm
      subst hb; subst ht2
      exact chain_mem_transGen r t _ _ hc.2 (hts.subset (by simp))

theorem chain_subset_range (succs : String → List String) (S : List String)
    (hS : ∀ a b, b ∈ succs a → b ∈ S) :
    ∀ l a, List.Chain (stepRel succs) a l → ∀ x ∈ l, x ∈ S := by
  intro l
  induction l with
  | nil => simp
  | cons b t ih =>
    intro a hc x hx
    rw [List.chain_cons] at hc
    rcases List.mem_cons.mp hx with rfl | hx'
    · exact hS a x hc.1
    · exact ih b hc.2 x hx'

theorem chain_length_le (succs : String → List String) (S : List String)
    (hS : ∀ a b, b ∈ succs a → b ∈ S)
    (hacy : ∀ a, ¬ Relation.TransGen (stepRel succs) a a) :
    ∀ g l, List.Chain (stepRel succs) g l → l.length ≤ S.length := by
  intro g l hc
  by_contra hlen
  push_neg at hlen
  have hnd : ¬ l.Nodup := by
    intro hnd
    have hsub : l ⊆ S := fun x hx => chain_subset_range succs S hS l g hc x hx
    exact absurd (hnd.subperm hsub).length_le (by omega)
  obtain ⟨x, hx⟩ := List.exists_duplicate_iff_not_nodup.mpr hnd
  exact hacy x (chain_dup_cycle _ l g x hc (List.duplicate_iff_sublist.mp hx))

theorem walk_isSome_of_short_chains (succs : String → List String) :
    ∀ n g, (∀ l, List.Chain (stepRel succs) g l → l.length < n) →
      ∃ l, walk succs n g = some l := by
  intro n
  induction n with
  | zero => intro g h; exact absurd (h [] List.Chain.nil) (by simp)
  | succ n ih =>
    intro g h
    have hsucc : ∀ p ∈ succs g, ∃ sub, walk succs n p = some sub := by
      intro p hp
      apply ih
      intro l hc
      have hlen := h (p :: l) (List.chain_cons.mpr ⟨hp, hc⟩)
      simp only [List.length_cons] at hlen
      omega
    have aux : ∀ rows, (∀ p ∈ rows, p ∈ succs g) → ∃ l, walkRows succs n rows = some l := by
      intro rows
      induction rows with
      | nil => exact fun _ => ⟨[], by rw [walkRows]⟩
      | cons q rest ihr =>
        intro hr
        obtain ⟨sub, hsub⟩ := hsucc q (hr q (by simp))
        obtain ⟨tl, htl⟩ := ihr (fun p hp => hr p (by simp [hp]))
        exact ⟨q :: (sub ++ tl), by rw [walkRows, hsub, htl]⟩
    obtain ⟨l, hl⟩ := aux (succs g) (fun p hp => hp)
    exact ⟨l, by rw [walk_succ]; exact hl⟩

theorem walk_closure (succs : String → List String) (S : List String)
    (hS : ∀ a b, b ∈ succs a → b ∈ S)
    (hacy : ∀ a, ¬ Relation.TransGen (stepRel succs) a a) (g : String) :
    ∃ l, walk succs (S.length + 1) g = some l ∧
      ∀ p, p ∈ l ↔ Relation.TransGen (stepRel succs) g p := by
  obtain ⟨l, hl⟩ := walk_isSome_of_short_chains succs (S.length + 1) g
    (fun l hc => Nat.lt_succ_of_le (chain_length_le succs S hS hacy g l hc))
  exact ⟨l, hl, fun p => ⟨fun hp => walk_sound succs _ g l hl p hp,
    fun h => walk_complete succs h _ l hl⟩⟩

theorem mem_parentsOf {edges : Edges} {a b : String} :
    b ∈ parentsOf edges a ↔ (b, a) ∈ edges := by
  simp only [parentsOf, List.mem_map, List.mem_filter, beq_iff_eq]
  constructor
  · rintro ⟨⟨p, c⟩, ⟨hmem, hc⟩, he⟩
    simp only at hc he
    subst hc; subst he
    exact hmem
  · intro h
    exact ⟨(b, a), ⟨h, rfl⟩, rfl⟩

theorem stepRel_parentsOf (edges : Edges) :
    stepRel (parentsOf edges) = memberOf edges := by
  funext a b
  exact propext (mem_parentsOf.trans Iff.rfl)

/-- C1: for every acyclic membership-edge relation and every group id `g`,
`get_parent_groups` terminates (fuel `edges.length + 1` always suffices) and
the set of ids it returns is exactly the transitive closure of the member-of
relation from `g`: all groups that directly or transitively contain `g`. -/
theorem get_parent_groups_closure (edges : Edges) (g : String)
    (hacy : AcyclicMembership edges) :
    ∃ l, get_parent_groups edges (edges.length + 1) g = some l ∧
      ∀ p, p ∈ l ↔ Relation.TransGen (memberOf edges) g p := by
  have hrel := stepRel_parentsOf edges
  have hacy' : ∀ a, ¬ Relation.TransGen (stepRel (parentsOf edges)) a a := by
    rw [hrel]; exact hacy
  have hS : ∀ a b, b ∈ parentsOf edges a → b ∈ edges.map Prod.fst := by
    intro a b hb
    rw [mem_parentsOf] at hb
    exact List.mem_map.mpr ⟨(b, a), hb, rfl⟩
  obtain ⟨l, hl, hiff⟩ := walk_closure (parentsOf edges) (edges.map Prod.fst) hS hacy' g
  rw [hrel] at hiff
  rw [List.length_map] at hl
  exact ⟨l, hl, hiff⟩

theorem acyclic_single_edge : AcyclicMembership [("B", "A")] := by
  intro a h
  have key : ∀ x y, Relation.TransGen (memberOf [("B", "A")]) x y → x = "A" ∧ y = "B" := by
    intro x y h
    induction h with
    | single hstep =>
      simp only [memberOf, List.mem_singleton, Prod.mk.injEq] at hstep
      exact ⟨hstep.2, hstep.1⟩
    | tail _ hstep ih =>
      simp only [memberOf, List.mem_singleton, Prod.mk.injEq] at hstep
      rw [hstep.2] at ih
      exact absurd ih.2 (by decide)
  obtain ⟨h1, h2⟩ := key a a h
  rw [h1] at h2
  exact absurd h2 (by decide)

/-- Witness for `get_parent_groups_closure`: with the single membership edge
"B contains A", resolving "A" with fuel 2 succeeds and returns exactly the
transitive closure of the member-of relation from "A". -/
theorem get_parent_groups_closure_witness :
    ∃ l, get_parent_groups [("B", "A")] 2 "A" = some l ∧
      ∀ p, p ∈ l ↔ Relation.TransGen (memberOf [("B", "A")]) "A" p :=
  get_parent_groups_closure [("B", "A")] "A" acyclic_single_edge

/-- C2 (the code, not the claim): on the deliberately cyclic fixture in which
group A contains B and B contains A, the recursive ancestor and descendant
walks never terminate: for every fuel budget they still run out of fuel, so the
unguarded recursion of the source runs forever. -/
theorem cyclic_fixture_diverges :
    ∀ n : Nat,
      (get_parent_groups [("A", "B"), ("B", "A")] n "A" = none ∧
        get_parent_groups [("A", "B"), ("B", "A")] n "B" = none) ∧
      (get_child_groups [("A", "B"), ("B", "A")] n "A" = none ∧
        get_child_groups [("A", "B"), ("B", "A")] n "B" = none) := by
  intro n
  induction n with
  | zero => exact ⟨⟨rfl, rfl⟩, rfl, rfl⟩
  | succ n ih =>
    obtain ⟨⟨hpA, hpB⟩, hcA, hcB⟩ := ih
    simp only [get_parent_groups, get_child_groups] at hpA hpB hcA hcB ⊢
    refine ⟨⟨?_, ?_⟩, ?_, ?_⟩
    · rw [walk_succ, show parentsOf [("A", "B"), ("B", "A")] "A" = ["B"] from rfl,
        walkRows, hpB]
    · rw [walk_succ, show parentsOf [("A", "B"), ("B", "A")] "B" = ["A"] from rfl,
        walkRows, hpA]
    · rw [walk_succ, show childrenOf [("A", "B"), ("B", "A")] "A" = ["B"] from rfl,
        walkRows, hcB]
    · rw [walk_succ, show childrenOf [("A", "B"), ("B", "A")] "B" = ["A"] from rfl,
        walkRows, hcA]

/-- C4: no resolution or aggregation lookup fails on missing data: a group id
that appears in no membership row yields an empty ancestor set and an empty
descendant set rather than an error, and an app id absent from the apps table
renders with the placeholder name. -/
theorem missing_data_fallbacks :
    (∀ (edges : Edges) (g : String) (n : Nat), (∀ e ∈ edges, e.2 ≠ g) →
      get_parent_groups edges (n + 1) g = some []) ∧
    (∀ (edges : Edges) (g : String) (n : Nat), (∀ e ∈ edges, e.1 ≠ g) →
      get_child_groups edges (n + 1) g = some []) ∧
    (∀ (db : DB) (app_id : String), (∀ r ∈ db.apps, r.1 ≠ app_id) →
      get_app_name db app_id = "?") := by
  refine ⟨?_, ?_, ?_⟩
  · intro edges g n h
    have he : parentsOf edges g = [] := by
      simp only [parentsOf, List.map_eq_nil_iff, List.filter_eq_nil_iff, beq_iff_eq]
      exact fun e he' => h e he'
    show walk (parentsOf edges) (n + 1) g = some []
    rw [walk_succ, he, walkRows]
  · intro edges g n h
    have he : childrenOf edges g = [] := by
      simp only [childrenOf, List.map_eq_nil_iff, List.filter_eq_nil_iff, beq_iff_eq]
      exact fun e he' => h e he'
    show walk (childrenOf edges) (n + 1) g = some []
    rw [walk_succ, he, walkRows]
  · intro db app_id h
    have hf : db.apps.find? (fun r => r.1 == app_id) = none := by
      rw [List.find?_eq_none]
      intro r hr
      simp [h r hr]
    simp [get_app_name, lookup_display_name, hf]

/-- An entirely empty snapshot, reused by several witnesses below. -/
def emptyDB : DB :=
  ⟨[], [], [], [], [], [], [], [], [], [], [], [], [], [], [], [], [], []⟩

/-- Witness for `missing_data_fallbacks` at concrete inputs. -/
theorem missing_data_fallbacks_witness :
    get_parent_groups [("A", "B")] 1 "C" = some [] ∧
    get_child_groups [("A", "B")] 1 "C" = some [] ∧
    get_app_name { emptyDB with apps := [("A", "AppA")] } "Z" = "?" :=
  ⟨missing_data_fallbacks.1 [("A", "B")] "C" 0 (by decide),
    missing_data_fallbacks.2.1 [("A", "B")] "C" 0 (by decide),
    missing_data_fallbacks.2.2 { emptyDB with apps := [("A", "AppA")] } "Z" (by decide)⟩

/-- C8: when the token response carries no access token but does carry a
diagnostic, `get_token` prints the diagnostic from the response and exits with
success status code 0. -/
theorem auth_failure_exits_zero (response : List (String × String)) (msg : String)
    (hnotok : response.lookup "access_token" = none)
    (hdiag : response.lookup "error_description" = some msg) :
    get_token response = TokenResult.exitWith 0 msg := by
  simp [get_token, hnotok, hdiag]

/-- Witness for `auth_failure_exits_zero` at a concrete failing response. -/
theorem auth_failure_exits_zero_witness :
    get_token [("error_description", "invalid client secret")] =
      TokenResult.exitWith 0 "invalid client secret" :=
  auth_failure_exits_zero _ _ (by decide) (by decide)

/-- C9: when the target display name is absent from the groups table, the
name-to-id lookup returns the `None` fallback and `show_group_summary`
produces no output at all: no header, no sections, no placeholder, no error. -/
theorem unknown_group_produces_no_output (db : DB) (beta : Bool) (fuel : Nat)
    (group_name : String) (h : get_group_id db group_name = none) :
    show_group_summary db beta fuel group_name = some [] := by
  simp [show_group_summary, h]

/-- Witness for `unknown_group_produces_no_output` on the empty snapshot. -/
theorem unknown_group_produces_no_output_witness :
    show_group_summary emptyDB true 1 "Engineering" = some [] :=
  unknown_group_produces_no_output emptyDB true 1 "Engineering" (by decide)

theorem mem_dedupFirstAux :
    ∀ (l seen : List String) (x : String),
      x ∈ dedupFirstAux seen l ↔ x ∈ l ∧ x ∉ seen := by
  intro l
  induction l with
  | nil => intro seen x; simp [dedupFirstAux]
  | cons y ys ih =>
    intro seen x
    rw [dedupFirstAux]
    by_cases hy : y ∈ seen
    · rw [if_pos hy, ih]
      simp only [List.mem_cons]
      constructor
      · exact fun h => ⟨Or.inr h.1, h.2⟩
      · rintro ⟨rfl | h1, h2⟩
        · exact absurd hy h2
        · exact ⟨h1, h2⟩
    · rw [if_neg hy]
      simp only [List.mem_cons, ih, List.mem_cons]
      constructor
      · rintro (rfl | ⟨h1, h2⟩)
        · exact ⟨Or.inl rfl, hy⟩
        · exact ⟨Or.inr h1, fun hx => h2 (Or.inr hx)⟩
      · rintro ⟨rfl | h1, h2⟩
        · exact Or.inl rfl
        · by_cases hxy : x = y
          · exact Or.inl hxy
          · refine Or.inr ⟨h1, fun hx => ?_⟩
            rcases hx with rfl | hx
            · exact hxy rfl
            · exact h2 hx

theorem nodup_dedupFirstAux : ∀ (l seen : List String), (dedupFirstAux seen l).Nodup := by
  intro l
  induction l with
  | nil => intro seen; simp [dedupFirstAux]
  | cons y ys ih =>
    intro seen
    rw [dedupFirstAux]
    by_cases hy : y ∈ seen
    · rw [if_pos hy]; exact ih seen
    · rw [if_neg hy]
      refine List.nodup_cons.mpr ⟨fun hmem => ?_, ih (y :: seen)⟩
      exact ((mem_dedupFirstAux ys (y :: seen) y).mp hmem).2 (by simp)

theorem mem_dedupFirst (l : List String) (x : String) : x ∈ dedupFirst l ↔ x ∈ l := by
  rw [dedupFirst, mem_dedupFirstAux]
  simp

theorem nodup_dedupFirst (l : List String) : (dedupFirst l).Nodup :=
  nodup_dedupFirstAux l []

theorem toUpper_not_lowercase (c : Char) :
    ¬(97 ≤ (Char.toUpper c).toNat ∧ (Char.toUpper c).toNat ≤ 122) := by
  simp only [Char.toUpper]
  split
  · next h =>
    have hv : (c.toNat - 32).isValidChar := Or.inl (by omega)
    rw [show Char.ofNat (c.toNat - 32) = Char.ofNatAux (c.toNat - 32) hv from dif_pos hv]
    have he : (Char.ofNatAux (c.toNat - 32) hv).toNat = c.toNat - 32 := rfl
    rw [he]
    omega
  · next h => exact h

theorem toUpper_ne_d (c : Char) : Char.toUpper c ≠ 'd' := by
  intro h
  have hc := toUpper_not_lowercase c
  rw [h] at hc
  exact hc (by decide)

theorem toUpper_ne_v (c : Char) : Char.toUpper c ≠ 'v' := by
  intro h
  have hc := toUpper_not_lowercase c
  rw [h] at hc
  exact hc (by decide)

theorem upper_data (s : String) : (upper s).data = s.data.map Char.toUpper := rfl

/-- A "(directly assigned)" App line and a "(via ...)" App line for the same
app can never collide as strings, whatever the intents and the ancestor name:
the uppercased intent segment cannot contain the lowercase markers that
distinguish the two provenance tails. -/
theorem direct_line_ne_via_line (nm x i1 i2 gn : String) :
    "- " ++ nm ++ " (" ++ x ++ ") " ++ "[" ++ upper i1 ++ "] (directly assigned)" ≠
      "- " ++ nm ++ " (" ++ x ++ ") " ++ "[" ++ upper i2 ++ "] (via " ++ gn ++ ")" := by
  intro h
  have hd := congrArg String.data h
  simp only [String.data_append, List.append_assoc, List.append_cancel_left_eq] at hd
  rcases List.append_eq_append_iff.mp hd with ⟨w, hw1, hw2⟩ | ⟨w, hw1, hw2⟩
  · match w, hw2 with
    | [], hw2 =>
      simp only [List.nil_append, List.cons_append, List.cons.injEq] at hw2
      exact absurd hw2.2.2.2.1 (by decide)
    | [a], hw2 =>
      simp only [List.cons_append, List.nil_append, List.cons.injEq] at hw2
      exact absurd hw2.2.1 (by decide)
    | [a, b], hw2 =>
      simp only [List.cons_append, List.nil_append, List.cons.injEq] at hw2
      exact absurd hw2.2.2.1 (by decide)
    | [a, b, c], hw2 =>
      simp only [List.cons_append, List.nil_append, List.cons.injEq] at hw2
      exact absurd hw2.2.2.2.1 (by decide)
    | a :: b :: c :: e :: wr, hw2 =>
      simp only [List.cons_append, List.cons.injEq] at hw2
      have he : 'd' = e := hw2.2.2.2.1
      have hmem : 'd' ∈ (upper i2).data := by
        rw [hw1]
        refine List.mem_append_right _ ?_
        rw [he]
        simp
      rw [upper_data] at hmem
      obtain ⟨ch, _, hch⟩ := List.mem_map.mp hmem
      exact toUpper_ne_d ch hch
  · match w, hw2 with
    | [], hw2 =>
      simp only [List.nil_append, List.cons_append, List.cons.injEq] at hw2
      exact absurd hw2.2.2.2.1 (by decide)
    | [a], hw2 =>
      simp only [List.cons_append, List.nil_append, List.cons.injEq] at hw2
      exact absurd hw2.2.1 (by decide)
    | [a, b], hw2 =>
      simp only [List.cons_append, List.nil_append, List.cons.injEq] at hw2
      exact absurd hw2.2.2.1 (by decide)
    | [a, b, c], hw2 =>
      simp only [List.cons_append, List.nil_append, List.cons.injEq] at hw2
      exact absurd hw2.2.2.2.1 (by decide)
    | a :: b :: c :: e :: wr, hw2 =>
      simp only [List.cons_append, List.cons.injEq] at hw2
      have he : 'v' = e := hw2.2.2.2.1
      have hmem : 'v' ∈ (upper i1).data := by
        rw [hw1]
        refine List.mem_append_right _ ?_
        rw [he]
        simp
      rw [upper_data] at hmem
      obtain ⟨ch, _, hch⟩ := List.mem_map.mp hmem
      exact toUpper_ne_v ch hch

theorem mem_keys_upsert (k : String) (v : String × String) (X : String) :
    ∀ l : List (String × String × String),
      X ∈ (upsert k v l).map (fun e => e.1) ↔ X = k ∨ X ∈ l.map (fun e => e.1) := by
  intro l
  induction l with
  | nil => simp [upsert]
  | cons e rest ih =>
    rw [upsert]
    by_cases hk : e.1 = k
    · rw [if_pos (by simp [hk])]
      simp only [List.map_cons, List.mem_cons, hk]
      tauto
    · rw [if_neg (by simp [hk])]
      simp only [List.map_cons, List.mem_cons, ih]
      tauto

theorem mem_keys_app_foldl (gid : String) :
    ∀ (rows : List (String × String × String)) (acc : List (String × String × String))
      (X : String),
      X ∈ ((rows.foldl (fun a r => upsert r.1 (r.2.2, gid) a) acc).map (fun e => e.1)) ↔
        X ∈ rows.map (fun r => r.1) ∨ X ∈ acc.map (fun e => e.1) := by
  intro rows
  induction rows with
  | nil => simp
  | cons r rest ih =>
    intro acc X
    rw [List.foldl_cons, ih]
    rw [mem_keys_upsert]
    simp only [List.map_cons, List.mem_cons]
    tauto

theorem exists_entry_get_app_assignments (db : DB) (gid X intent : String)
    (h : (X, gid, intent) ∈ db.app_assignments) :
    ∃ w, (X, w) ∈ get_app_assignments db gid := by
  have hrow : (X, gid, intent) ∈ db.app_assignments.filter (fun r => r.2.1 == gid) :=
    List.mem_filter.mpr ⟨h, by simp⟩
  have hkey : X ∈ (get_app_assignments db gid).map (fun e => e.1) := by
    rw [get_app_assignments, mem_keys_app_foldl]
    exact Or.inl (List.mem_map.mpr ⟨(X, gid, intent), hrow, rfl⟩)
  obtain ⟨e, he, hfst⟩ := List.mem_map.mp hkey
  exact ⟨e.2, by rw [← hfst, Prod.mk.eta]; exact he⟩

/-- C3: ancestors reached by several paths are de-duplicated (each ancestor id
occurs exactly once in the de-duplicated ancestor list used for aggregation),
but an artifact assigned both directly to the target group and independently
to an ancestor produces two distinct report lines, one tagged as directly
assigned and one tagged with the ancestor's name. -/
theorem ancestor_dedup_and_independent_assignment_lines :
    (∀ (ps : List String) (A : String), A ∈ ps → (dedupFirst ps).count A = 1) ∧
    (∀ (db : DB) (gid A : String) (parent_ids : List String) (X i1 i2 : String),
      A ∈ parent_ids →
      (X, gid, i1) ∈ db.app_assignments →
      (X, A, i2) ∈ db.app_assignments →
      ∃ u v,
        ("- " ++ get_app_name db X ++ " (" ++ X ++ ") " ++ "[" ++ upper u
            ++ "] (directly assigned)") ∈ app_lines db gid parent_ids ∧
        ("- " ++ get_app_name db X ++ " (" ++ X ++ ") " ++ "[" ++ upper v
            ++ "] (via " ++ get_group_name db A ++ ")") ∈ app_lines db gid parent_ids ∧
        ("- " ++ get_app_name db X ++ " (" ++ X ++ ") " ++ "[" ++ upper u
            ++ "] (directly assigned)") ≠
          ("- " ++ get_app_name db X ++ " (" ++ X ++ ") " ++ "[" ++ upper v
            ++ "] (via " ++ get_group_name db A ++ ")")) := by
  constructor
  · intro ps A h
    exact List.count_eq_one_of_mem (nodup_dedupFirst ps) ((mem_dedupFirst ps A).mpr h)
  · intro db gid A parent_ids X i1 i2 hA h1 h2
    obtain ⟨w1, hw1⟩ := exists_entry_get_app_assignments db gid X i1 h1
    obtain ⟨w2, hw2⟩ := exists_entry_get_app_assignments db A X i2 h2
    refine ⟨w1.1, w2.1, ?_, ?_, direct_line_ne_via_line _ _ _ _ _⟩
    · refine List.mem_append_left _ (List.mem_map.mpr ⟨(X, w1), hw1, rfl⟩)
    · refine List.mem_append_right _ (List.mem_flatMap.mpr
        ⟨A, hA, List.mem_map.mpr ⟨(X, w2), hw2, rfl⟩⟩)

/-- Concrete fixture for the witness of
`ancestor_dedup_and_independent_assignment_lines`. -/
def dupLinesDB : DB :=
  { emptyDB with
    groups := [("P", "ParentGroup")]
    apps := [("X", "AppName")]
    app_assignments := [("X", "G", "required"), ("X", "P", "available")] }

/-- Witness for `ancestor_dedup_and_independent_assignment_lines` at concrete
inputs: a duplicated ancestor list, and an app assigned both to the target
group and to its ancestor. -/
theorem ancestor_dedup_and_independent_assignment_lines_witness :
    (dedupFirst ["P", "P"]).count "P" = 1 ∧
    (∃ u v,
      ("- " ++ get_app_name dupLinesDB "X" ++ " (" ++ "X" ++ ") " ++ "[" ++ upper u
          ++ "] (directly assigned)") ∈ app_lines dupLinesDB "G" ["P"] ∧
      ("- " ++ get_app_name dupLinesDB "X" ++ " (" ++ "X" ++ ") " ++ "[" ++ upper v
          ++ "] (via " ++ get_group_name dupLinesDB "P" ++ ")") ∈ app_lines dupLinesDB "G" ["P"] ∧
      ("- " ++ get_app_name dupLinesDB "X" ++ " (" ++ "X" ++ ") " ++ "[" ++ upper u
          ++ "] (directly assigned)") ≠
        ("- " ++ get_app_name dupLinesDB "X" ++ " (" ++ "X" ++ ") " ++ "[" ++ upper v
          ++ "] (via " ++ get_group_name dupLinesDB "P" ++ ")")) :=
  ⟨ancestor_dedup_and_independent_assignment_lines.1 ["P", "P"] "P" (by decide),
    ancestor_dedup_and_independent_assignment_lines.2 dupLinesDB "G" "P" ["P"] "X"
      "required" "available" (by decide) (by decide) (by decide)⟩

theorem nodup_keys_upsert (k : String) (v : String × String) :
    ∀ l : List (String × String × String),
      (l.map ( fun e => e.1)).Nodup → ((upsert k v l).map (fun e => e.1)).Nodup := by
  intro l
  induction l with
  | nil => intro _; simp [upsert]
  | cons e rest ih =>
    intro h
    simp only [List.map_cons, List.nodup_cons] at h
    rw [upsert]
    by_cases hk : e.1 = k
    · rw [if_pos (by simp [hk])]
      simp only [List.map_cons, List.nodup_cons]
      exact ⟨by rw [← hk]; exact h.1, h.2⟩
    · rw [if_neg (by simp [hk])]
      simp only [List.map_cons, List.nodup_cons]
      refine ⟨fun hmem => ?_, ih h.2⟩
      rcases (mem_keys_upsert k v e.1 rest).mp hmem with heq | hmem'
      · exact hk heq
      · exact h.1 hmem'

theorem nodup_keys_app_foldl (gid : String) :
    ∀ (rows acc : List (String × String × String)),
      (acc.map (fun e => e.1)).Nodup →
      ((rows.foldl (fun a r => upsert r.1 (r.2.2, gid) a) acc).map (fun e => e.1)).Nodup := by
  intro rows
  induction rows with
  | nil => intro acc h; simpa using h
  | cons r rest ih =>
    intro acc h
    rw [List.foldl_cons]
    exact ih _ (nodup_keys_upsert _ _ acc h)

theorem lookup_upsert (k : String) (v : String × String) (k' : String) :
    ∀ l : List (String × String × String),
      (upsert k v l).lookup k' = if k' = k then some v else l.lookup k' := by
  intro l
  induction l with
  | nil =>
    by_cases h : k' = k
    · simp [upsert, List.lookup, h]
    · have hb : (k' == k) = false := by simp [h]
      simp [upsert, List.lookup, hb, h]
  | cons e rest ih =>
    obtain ⟨e1, e2⟩ := e
    rw [upsert]
    by_cases hek : e1 = k
    · rw [if_pos (by simp [hek])]
      by_cases h : k' = k
      · simp [List.lookup, h]
      · have hbk : (k' == k) = false := by simp [h]
        have hbe : (k' == e1) = false := by simp [hek, h]
        simp [List.lookup, hbk, hbe, if_neg h]
    · rw [if_neg (by simp [hek])]
      by_cases he : k' = e1
      · have hbe : (k' == e1) = true := by simp [he]
        have hnk : k' ≠ k := fun hh => hek (by rw [← he, hh])
        simp [List.lookup, hbe, if_neg hnk]
      · have hbe : (k' == e1) = false := by simp [he]
        have hl1 : List.lookup k' ((e1, e2) :: upsert k v rest) =
            List.lookup k' (upsert k v rest) := by
          simp [List.lookup, hbe]
        have hl2 : List.lookup k' ((e1, e2) :: rest) = List.lookup k' rest := by
          simp [List.lookup, hbe]
        rw [hl1, ih, hl2]

theorem getLast?_cons_match {α : Type} (a : α) (l : List α) :
    (a :: l).getLast? = match l.getLast? with
      | some x => some x
      | none => some a := by
  cases l with
  | nil => rfl
  | cons b t =>
    rw [List.getLast?_cons_cons]
    cases hx : (b :: t).getLast? with
    | some x => rfl
    | none => exact absurd hx (by simp)

theorem lookup_app_foldl (gid : String) :
    ∀ (rows acc : List (String × String × String)) (X : String),
      (rows.foldl (fun a r => upsert r.1 (r.2.2, gid) a) acc).lookup X =
        match (rows.filter (fun r => r.1 == X)).getLast? with
        | some r => some (r.2.2, gid)
        | none => acc.lookup X := by
  intro rows
  induction rows with
  | nil => intro acc X; rfl
  | cons r rest ih =>
    intro acc X
    rw [List.foldl_cons, ih, List.filter_cons]
    by_cases hr : r.1 = X
    · rw [if_pos (by simp [hr])]
      rw [getLast?_cons_match]
      cases hlast : (rest.filter (fun r => r.1 == X)).getLast? with
      | some q => rfl
      | none =>
        rw [lookup_upsert]
        rw [if_pos hr.symm]
    · rw [if_neg (by simp [hr])]
      cases hlast : (rest.filter (fun r => r.1 == X)).getLast? with
      | some q => rfl
      | none =>
        rw [lookup_upsert]
        rw [if_neg (fun hh => hr hh.symm)]

/-- C10: for the App kind the per-group fetch is keyed by app id, so several
rows for the same (app, group) pair collapse into a single entry whose intent
comes from the last row read; the script fetch (like every other non-App kind)
returns a plain list in which every duplicate row survives. -/
theorem app_assignments_keyed_by_id (db : DB) (gid : String) :
    ((get_app_assignments db gid).map (fun e => e.1)).Nodup ∧
    (∀ X, (get_app_assignments db gid).lookup X =
      match ((db.app_assignments.filter (fun r => r.2.1 == gid)).filter
          (fun r => r.1 == X)).getLast? with
      | some r => some (r.2.2, gid)
      | none => none) ∧
    (∀ sid, (get_script_assignments db gid).count sid =
      (db.script_assignments.filter (fun r => r.1 == sid && r.2 == gid)).length) := by
  refine ⟨?_, ?_, ?_⟩
  · exact nodup_keys_app_foldl gid _ [] (by simp)
  · intro X
    rw [get_app_assignments, lookup_app_foldl]
    cases ((db.app_assignments.filter (fun r => r.2.1 == gid)).filter
        (fun r => r.1 == X)).getLast? with
    | some q => rfl
    | none => rfl
  · intro sid
    rw [get_script_assignments, List.count_eq_countP, List.countP_map,
      List.countP_filter, List.countP_eq_length_filter]
    rfl

/-- C6: every artifact section outputs the full rendered collection sorted
lexicographically as text, as one block in which direct and inherited lines
interleave by their text (the output is a sorted permutation of the combined
collection, not grouped by provenance); an empty collection renders as the
literal placeholder "None". -/
theorem section_sorted_or_none (lines : List String) :
    (lines ≠ [] →
      (render_section lines).Sorted (fun a b => a ≤ b) ∧ List.Perm (render_section lines) lines) ∧
    (lines = [] → render_section lines = ["None"]) := by
  constructor
  · intro h
    rw [render_section,
      if_pos (fun hh : lines.length = 0 => h (List.length_eq_zero.mp hh))]
    exact ⟨List.sorted_insertionSort _ lines, List.perm_insertionSort _ lines⟩
  · intro h
    rw [render_section, h]
    rfl

/-- Witness for `section_sorted_or_none` on a concrete two-line collection and
on the empty collection. -/
theorem section_sorted_or_none_witness :
    ((render_section ["b", "a"]).Sorted (fun a b => a ≤ b) ∧
      List.Perm (render_section ["b", "a"]) ["b", "a"]) ∧
    render_section [] = ["None"] :=
  ⟨(section_sorted_or_none ["b", "a"]).1 (by decide),
    (section_sorted_or_none []).2 rfl⟩

/-- The spec's scenario fixture: Engineering is a member of AllStaff, and AppX
is assigned to AllStaff with intent "required". -/
def scenarioDB : DB :=
  { emptyDB with
    groups := [("G1", "Engineering"), ("G2", "AllStaff")]
    memberships := [("G2", "G1")]
    apps := [("APP1", "AppX")]
    app_assignments := [("APP1", "G2", "required")] }

/-- C5: every rendered App line is exactly dash, display name, id in
parentheses, uppercased intent in brackets, then the provenance (directly
assigned, or via the ancestor's display name); every non-App line has the same
shape with the intent segment omitted; and resolving "Engineering" in the
spec's fixture reports ancestor AllStaff and produces exactly the one App line
"- AppX (APP1) [REQUIRED] (via AllStaff)". -/
theorem app_line_format_and_fixture :
    (∀ (db : DB) (gid : String) (parent_ids : List String) (line : String),
      line ∈ app_lines db gid parent_ids →
      (∃ a, a ∈ get_app_assignments db gid ∧
        line = "- " ++ get_app_name db a.1 ++ " (" ++ a.1 ++ ") " ++ "[" ++ upper a.2.1
          ++ "] (directly assigned)") ∨
      (∃ pid a, pid ∈ parent_ids ∧ a ∈ get_app_assignments db pid ∧
        line = "- " ++ get_app_name db a.1 ++ " (" ++ a.1 ++ ") " ++ "[" ++ upper a.2.1
          ++ "] (via " ++ get_group_name db pid ++ ")")) ∧
    (∀ (name_of : String → String) (assignments_of : String → List String)
        (group_name_of : String → String) (gid : String) (parent_ids : List String)
        (line : String),
      line ∈ plain_lines name_of assignments_of group_name_of gid parent_ids →
      (∃ aid, aid ∈ assignments_of gid ∧
        line = "- " ++ name_of aid ++ " (" ++ aid ++ ")" ++ " (directly assigned)") ∨
      (∃ pid aid, pid ∈ parent_ids ∧ aid ∈ assignments_of pid ∧
        line = "- " ++ name_of aid ++ " (" ++ aid ++ ")" ++ " (via "
          ++ group_name_of pid ++ ")")) ∧
    show_group_summary scenarioDB true 2 "Engineering" =
      some ["GROUP NAME:\tEngineering", "ID:\t\tG1", "", "=== MEMBER OF ===", "- AllStaff", "",
        "=== MEMBERS ===", "None", "",
        "=== APPLICATIONS ===", "- AppX (APP1) [REQUIRED] (via AllStaff)", "",
        "=== SCRIPTS (via beta API) ===", "None", "",
        "=== DEVICE COMPLIANCE POLICIES ===", "None", "",
        "=== CONFIGURATION POLICIES (via beta API) ===", "None", "",
        "=== GROUP POLICIES (via beta API) ===", "None", "",
        "=== DEVICE CONFIGURATION PROFILES ===", "None", "",
        "=== INTENT PROFILES (via beta API) ===", "None", "",
        "=== WINDOWS DEPLOYMENT PROFILES (via beta API) ===", "None", ""] := by
  refine ⟨?_, ?_, by decide⟩
  · intro db gid parent_ids line hline
    rcases List.mem_append.mp hline with hdir | hvia
    · obtain ⟨a, ha, hl⟩ := List.mem_map.mp hdir
      exact Or.inl ⟨a, ha, hl.symm⟩
    · obtain ⟨pid, hpid, hmem⟩ := List.mem_flatMap.mp hvia
      obtain ⟨a, ha, hl⟩ := List.mem_map.mp hmem
      exact Or.inr ⟨pid, a, hpid, ha, hl.symm⟩
  · intro name_of assignments_of group_name_of gid parent_ids line hline
    rcases List.mem_append.mp hline with hdir | hvia
    · obtain ⟨aid, ha, hl⟩ := List.mem_map.mp hdir
      exact Or.inl ⟨aid, ha, hl.symm⟩
    · obtain ⟨pid, hpid, hmem⟩ := List.mem_flatMap.mp hvia
      obtain ⟨aid, ha, hl⟩ := List.mem_map.mp hmem
      exact Or.inr ⟨pid, aid, hpid, ha, hl.symm⟩

/-- Witness for `app_line_format_and_fixture`: the fixture's single App line
and a one-element non-App section, each matched against the stated shapes. -/
theorem app_line_format_and_fixture_witness :
    ((∃ a, a ∈ get_app_assignments scenarioDB "G1" ∧
      "- AppX (APP1) [REQUIRED] (via AllStaff)" =
        "- " ++ get_app_name scenarioDB a.1 ++ " (" ++ a.1 ++ ") " ++ "[" ++ upper a.2.1
          ++ "] (directly assigned)") ∨
    (∃ pid a, pid ∈ ["G2"] ∧ a ∈ get_app_assignments scenarioDB pid ∧
      "- AppX (APP1) [REQUIRED] (via AllStaff)" =
        "- " ++ get_app_name scenarioDB a.1 ++ " (" ++ a.1 ++ ") " ++ "[" ++ upper a.2.1
          ++ "] (via " ++ get_group_name scenarioDB pid ++ ")")) ∧
    ((∃ aid, aid ∈ ["S1"] ∧
      "- N (S1) (directly assigned)" =
        "- " ++ "N" ++ " (" ++ aid ++ ")" ++ " (directly assigned)") ∨
    (∃ pid aid, pid ∈ ([] : List String) ∧ aid ∈ ["S1"] ∧
      "- N (S1) (directly assigned)" =
        "- " ++ "N" ++ " (" ++ aid ++ ")" ++ " (via " ++ "P" ++ ")")) :=
  ⟨app_line_format_and_fixture.1 scenarioDB "G1" ["G2"]
      "- AppX (APP1) [REQUIRED] (via AllStaff)" (by decide),
    app_line_format_and_fixture.2.1 (fun _ => "N") (fun _ => ["S1"]) (fun _ => "P") "G" []
      "- N (S1) (directly assigned)" (by decide)⟩

theorem append_ne_of_head (p s h : String) (c : Char)
    (hp : p.data.head? = some c) (hh : h.data.head? ≠ some c) : p ++ s ≠ h := by
  intro he
  apply hh
  rw [← he]
  cases hd : p.data with
  | nil => rw [hd] at hp; simp at hp
  | cons a t =>
    rw [hd] at hp
    simp only [List.head?_cons, Option.some.injEq] at hp
    rw [show (p ++ s).data = p.data ++ s.data from String.data_append p s, hd]
    simp [hp]

theorem dash_line_shape (t : String) : ∃ s, "- " ++ t = "-" ++ s :=
  ⟨" " ++ t, by rw [← String.append_assoc, show ("-" ++ " " : String) = "- " from by decide]⟩

theorem mem_app_lines_cases (db : DB) (gid : String) (parent_ids : List String) (line : String)
    (hline : line ∈ app_lines db gid parent_ids) :
    (∃ a, a ∈ get_app_assignments db gid ∧
      line = "- " ++ get_app_name db a.1 ++ " (" ++ a.1 ++ ") " ++ "[" ++ upper a.2.1
        ++ "] (directly assigned)") ∨
    (∃ pid a, pid ∈ parent_ids ∧ a ∈ get_app_assignments db pid ∧
      line = "- " ++ get_app_name db a.1 ++ " (" ++ a.1 ++ ") " ++ "[" ++ upper a.2.1
        ++ "] (via " ++ get_group_name db pid ++ ")") := by
  rcases List.mem_append.mp hline with hdir | hvia
  · obtain ⟨a, ha, hl⟩ := List.mem_map.mp hdir
    exact Or.inl ⟨a, ha, hl.symm⟩
  · obtain ⟨pid, hpid, hmem⟩ := List.mem_flatMap.mp hvia
    obtain ⟨a, ha, hl⟩ := List.mem_map.mp hmem
    exact Or.inr ⟨pid, a, hpid, ha, hl.symm⟩

theorem mem_plain_lines_cases (name_of : String → String)
    (assignments_of : String → List String) (group_name_of : String → String)
    (gid : String) (parent_ids : List String) (line : String)
    (hline : line ∈ plain_lines name_of assignments_of group_name_of gid parent_ids) :
    (∃ aid, aid ∈ assignments_of gid ∧
      line = "- " ++ name_of aid ++ " (" ++ aid ++ ")" ++ " (directly assigned)") ∨
    (∃ pid aid, pid ∈ parent_ids ∧ aid ∈ assignments_of pid ∧
      line = "- " ++ name_of aid ++ " (" ++ aid ++ ")" ++ " (via "
        ++ group_name_of pid ++ ")") := by
  rcases List.mem_append.mp hline with hdir | hvia
  · obtain ⟨aid, ha, hl⟩ := List.mem_map.mp hdir
    exact Or.inl ⟨aid, ha, hl.symm⟩
  · obtain ⟨pid, hpid, hmem⟩ := List.mem_flatMap.mp hvia
    obtain ⟨aid, ha, hl⟩ := List.mem_map.mp hmem
    exact Or.inr ⟨pid, aid, hpid, ha, hl.symm⟩

theorem app_lines_dash (db : DB) (gid : String) (ps : List String) (line : String)
    (h : line ∈ app_lines db gid ps) : ∃ s, line = "-" ++ s := by
  rcases mem_app_lines_cases db gid ps line h with ⟨a, _, hl⟩ | ⟨pid, a, _, _, hl⟩ <;>
    · rw [hl]
      simp only [String.append_assoc]
      exact dash_line_shape _

theorem plain_lines_dash (name_of : String → String) (assignments_of : String → List String)
    (group_name_of : String → String) (gid : String) (ps : List String) (line : String)
    (h : line ∈ plain_lines name_of assignments_of group_name_of gid ps) :
    ∃ s, line = "-" ++ s := by
  rcases mem_plain_lines_cases name_of assignments_of group_name_of gid ps line h with
    ⟨aid, _, hl⟩ | ⟨pid, aid, _, _, hl⟩ <;>
    · rw [hl]
      simp only [String.append_assoc]
      exact dash_line_shape _

theorem mem_render_section (lines : List String) (line : String)
    (h : line ∈ render_section lines) : line = "None" ∨ line ∈ lines := by
  rw [render_section] at h
  by_cases hl : lines.length ≠ 0
  · rw [if_pos hl] at h
    exact Or.inr ((List.perm_insertionSort _ lines).mem_iff.mp h)
  · rw [if_neg hl] at h
    simp only [List.mem_singleton] at h
    exact Or.inl h

theorem hier_lines_dash (succs : String → List String) (name_of : String → String) :
    ∀ n g level out, hier succs name_of n g (level + 1) = some out →
      ∀ line ∈ out, ∃ s, line = "-" ++ s := by
  intro n
  induction n with
  | zero => intro g level out h; simp [hier] at h
  | succ n ih =>
    intro g level out h
    rw [hier_succ] at h
    have aux : ∀ rows out, hierRows succs name_of n rows (level + 1) = some out →
        ∀ line ∈ out, ∃ s, line = "-" ++ s := by
      intro rows
      induction rows with
      | nil =>
        intro out h line hl
        rw [hierRows] at h
        cases h
        simp at hl
      | cons p rest ihr =>
        intro out h line hl
        rw [hierRows] at h
        cases hsub : hier succs name_of n p (level + 1 + 1) with
        | none => rw [hsub] at h; simp at h
        | some sub =>
          cases hrest : hierRows succs name_of n rest (level + 1) with
          | none => rw [hsub, hrest] at h; simp at h
          | some tl =>
            rw [hsub, hrest] at h
            simp only [Option.some.injEq] at h
            subst h
            rcases List.mem_cons.mp hl with rfl | hl'
            · refine ⟨dashes level ++ (" " ++ name_of p), ?_⟩
              rw [show dashes (level + 1) = "-" ++ dashes level from rfl]
              simp [String.append_assoc]
            · rcases List.mem_append.mp hl' with hs | ht
              · exact ih p (level + 1) sub hsub line hs
              · exact ihr tl hrest line ht
    exact aux (succs g) out h

theorem member_of_section_shape (db : DB) (fuel : Nat) (gid : String) (pids : List String)
    (mo : List String) (h : member_of_section db fuel gid pids = some mo) :
    ∀ line ∈ mo,
      line = "=== MEMBER OF ===" ∨ line = "None" ∨ line = "" ∨ ∃ s, line = "-" ++ s := by
  rw [member_of_section] at h
  by_cases hp : pids.length = 0
  · rw [if_pos hp] at h
    simp only [Option.some.injEq] at h
    subst h
    intro line hl
    rcases List.mem_cons.mp hl with rfl | hl'
    · exact Or.inl rfl
    · rcases List.mem_cons.mp hl' with rfl | hl''
      · exact Or.inr (Or.inl rfl)
      · exact Or.inr (Or.inr (Or.inl (by simpa using hl'')))
  · rw [if_neg hp] at h
    cases hh : print_parent_groups_hierarchy db fuel gid 1 with
    | none => rw [hh] at h; simp at h
    | some hlines =>
      rw [hh] at h
      simp only [Option.some.injEq] at h
      subst h
      intro line hl
      rcases List.mem_cons.mp hl with rfl | hl'
      · exact Or.inl rfl
      · rcases List.mem_append.mp hl' with h3 | h4
        · exact Or.inr (Or.inr (Or.inr
            (hier_lines_dash _ _ fuel gid 0 hlines hh line h3)))
        · exact Or.inr (Or.inr (Or.inl (by simpa using h4)))

theorem members_section_shape (db : DB) (fuel : Nat) (gid : String) (cids : List String)
    (mem : List String) (h : members_section db fuel gid cids = some mem) :
    ∀ line ∈ mem,
      line = "=== MEMBERS ===" ∨ line = "None" ∨ line = "" ∨ ∃ s, line = "-" ++ s := by
  rw [members_section] at h
  by_cases hp : cids.length = 0
  · rw [if_pos hp] at h
    simp only [Option.some.injEq] at h
    subst h
    intro line hl
    rcases List.mem_cons.mp hl with rfl | hl'
    · exact Or.inl rfl
    · rcases List.mem_cons.mp hl' with rfl | hl''
      · exact Or.inr (Or.inl rfl)
      · exact Or.inr (Or.inr (Or.inl (by simpa using hl'')))
  · rw [if_neg hp] at h
    cases hh : print_child_groups_hierarchy db fuel gid 1 with
    | none => rw [hh] at h; simp at h
    | some hlines =>
      rw [hh] at h
      simp only [Option.some.injEq] at h
      subst h
      intro line hl
      rcases List.mem_cons.mp hl with rfl | hl'
      · exact Or.inl rfl
      · rcases List.mem_append.mp hl' with h3 | h4
        · exact Or.inr (Or.inr (Or.inr
            (hier_lines_dash _ _ fuel gid 0 hlines hh line h3)))
        · exact Or.inr (Or.inr (Or.inl (by simpa using h4)))

theorem app_section_shape (db : DB) (beta : Bool) (gid : String) (pids : List String)
    (line : String) (h : line ∈ app_section db beta gid pids) :
    line = "=== APPLICATIONS ===" ∨
    line = "(Office, Edge and possibly other 'built-in' apps are not shown, because the beta API is not enabled.)" ∨
    line = "None" ∨ line = "" ∨ ∃ s, line = "-" ++ s := by
  rw [app_section] at h
  rcases List.mem_append.mp h with h1 | h2
  · rcases List.mem_append.mp h1 with h3 | h4
    · rcases List.mem_append.mp h3 with h5 | h6
      · exact Or.inl (by simpa using h5)
      · cases beta with
        | true => simp at h6
        | false => exact Or.inr (Or.inl (by simpa using h6))
    · rcases mem_render_section _ _ h4 with rfl | h5
      · exact Or.inr (Or.inr (Or.inl rfl))
      · exact Or.inr (Or.inr (Or.inr (Or.inr (app_lines_dash db gid pids line h5))))
  · exact Or.inr (Or.inr (Or.inr (Or.inl (by simpa using h2))))

theorem plain_section_shape (title : String) (name_of : String → String)
    (assignments_of : String → List String) (group_name_of : String → String)
    (gid : String) (pids : List String) (line : String)
    (h : line ∈ plain_section title name_of assignments_of group_name_of gid pids) :
    line = title ∨ line = "None" ∨ line = "" ∨ ∃ s, line = "-" ++ s := by
  rw [plain_section] at h
  rcases List.mem_cons.mp h with rfl | h1
  · exact Or.inl rfl
  · rcases List.mem_append.mp h1 with h2 | h3
    · rcases mem_render_section _ _ h2 with rfl | h4
      · exact Or.inr (Or.inl rfl)
      · exact Or.inr (Or.inr (Or.inr
          (plain_lines_dash name_of assignments_of group_name_of gid pids line h4)))
    · exact Or.inr (Or.inr (Or.inl (by simpa using h3)))

theorem show_lines_shape (db : DB) (fuel : Nat) (name : String) (out : List String)
    (h : show_group_summary db false fuel name = some out) :
    ∀ line ∈ out,
      (∃ s, line = "GROUP NAME:\t" ++ s) ∨ (∃ s, line = "ID:\t\t" ++ s) ∨
      (∃ s, line = "-" ++ s) ∨
      line ∈ (["", "None", "=== MEMBER OF ===", "=== MEMBERS ===", "=== APPLICATIONS ===",
        "(Office, Edge and possibly other 'built-in' apps are not shown, because the beta API is not enabled.)",
        "=== DEVICE COMPLIANCE POLICIES ===",
        "=== DEVICE CONFIGURATION PROFILES ==="] : List String) := by
  rw [show_group_summary] at h
  cases hgid : get_group_id db name with
  | none =>
    simp only [hgid, Option.some.injEq] at h
    subst h
    intro line hl
    simp at hl
  | some gid =>
    simp only [hgid] at h
    by_cases hemp : gid = ""
    · rw [if_pos hemp] at h
      simp only [Option.some.injEq] at h
      subst h
      intro line hl
      simp at hl
    · rw [if_neg hemp] at h
      cases hps : get_parent_groups db.memberships fuel gid with
      | none => simp only [hps] at h; exact Option.noConfusion h
      | some ps =>
        simp only [hps] at h
        cases hcs : get_child_groups db.memberships fuel gid with
        | none => simp only [hcs] at h; exact Option.noConfusion h
        | some cs =>
          simp only [hcs] at h
          cases hmo : member_of_section db fuel gid (dedupFirst ps) with
          | none => simp only [hmo] at h; exact Option.noConfusion h
          | some mo =>
            simp only [hmo] at h
            cases hmem : members_section db fuel gid (dedupFirst cs) with
            | none => simp only [hmem] at h; exact Option.noConfusion h
            | some mem =>
              simp only [hmem, Option.some.injEq] at h
              subst h
              intro line hl
              simp only [if_neg (show ¬((false : Bool) = true) from by decide),
                List.append_nil, List.mem_append, List.mem_cons,
                List.not_mem_nil, or_false] at hl
              rcases hl with (((((rfl | rfl | rfl) | hmo') | hmem') | happ) | hcomp) | hdevc
              · exact Or.inl ⟨name, rfl⟩
              · exact Or.inr (Or.inl ⟨gid, rfl⟩)
              · exact Or.inr (Or.inr (Or.inr (by simp)))
              · rcases member_of_section_shape db fuel gid _ mo hmo line hmo' with
                  rfl | rfl | rfl | hd
                · exact Or.inr (Or.inr (Or.inr (by simp)))
                · exact Or.inr (Or.inr (Or.inr (by simp)))
                · exact Or.inr (Or.inr (Or.inr (by simp)))
                · exact Or.inr (Or.inr (Or.inl hd))
              · rcases members_section_shape db fuel gid _ mem hmem line hmem' with
                  rfl | rfl | rfl | hd
                · exact Or.inr (Or.inr (Or.inr (by simp)))
                · exact Or.inr (Or.inr (Or.inr (by simp)))
                · exact Or.inr (Or.inr (Or.inr (by simp)))
                · exact Or.inr (Or.inr (Or.inl hd))
              · rcases app_section_shape db false gid _ line happ with
                  rfl | rfl | rfl | rfl | hd
                · exact Or.inr (Or.inr (Or.inr (by simp)))
                · exact Or.inr (Or.inr (Or.inr (by simp)))
                · exact Or.inr (Or.inr (Or.inr (by simp)))
                · exact Or.inr (Or.inr (Or.inr (by simp)))
                · exact Or.inr (Or.inr (Or.inl hd))
              · rcases plain_section_shape _ _ _ _ _ _ line hcomp with rfl | rfl | rfl | hd
                · exact Or.inr (Or.inr (Or.inr (by simp)))
                · exact Or.inr (Or.inr (Or.inr (by simp)))
                · exact Or.inr (Or.inr (Or.inr (by simp)))
                · exact Or.inr (Or.inr (Or.inl hd))
              · rcases plain_section_shape _ _ _ _ _ _ line hdevc with rfl | rfl | rfl | hd
                · exact Or.inr (Or.inr (Or.inr (by simp)))
                · exact Or.inr (Or.inr (Or.inr (by simp)))
                · exact Or.inr (Or.inr (Or.inr (by simp)))
                · exact Or.inr (Or.inr (Or.inl hd))

theorem header_not_in_beta_false_output (db : DB) (fuel : Nat) (name : String)
    (out : List String) (h : show_group_summary db false fuel name = some out)
    (H : String) (hG : H.data.head? ≠ some 'G') (hI : H.data.head? ≠ some 'I')
    (hd : H.data.head? ≠ some '-')
    (hlit : H ∉ (["", "None", "=== MEMBER OF ===", "=== MEMBERS ===", "=== APPLICATIONS ===",
      "(Office, Edge and possibly other 'built-in' apps are not shown, because the beta API is not enabled.)",
      "=== DEVICE COMPLIANCE POLICIES ===",
      "=== DEVICE CONFIGURATION PROFILES ==="] : List String)) :
    H ∉ out := by
  intro hmem
  rcases show_lines_shape db fuel name out h H hmem with ⟨s, hs⟩ | ⟨s, hs⟩ | ⟨s, hs⟩ | hl
  · exact append_ne_of_head "GROUP NAME:\t" s H 'G' rfl hG hs.symm
  · exact append_ne_of_head "ID:\t\t" s H 'I' rfl hI hs.symm
  · exact append_ne_of_head "-" s H '-' rfl hd hs.symm
  · exact hlit hl

/-- C7: with the extended-feature (beta) flag disabled, the gated artifact
sections (scripts, configuration policies, group policies, intent profiles,
deployment profiles) are entirely absent from the report: their headers appear
nowhere in the output. The App, device compliance policy and device
configuration profile sections are present whenever any report is produced,
regardless of the flag. -/
theorem beta_gating (db : DB) (fuel : Nat) (name : String) (out : List String) :
    (show_group_summary db false fuel name = some out →
      "=== SCRIPTS (via beta API) ===" ∉ out ∧
      "=== CONFIGURATION POLICIES (via beta API) ===" ∉ out ∧
      "=== GROUP POLICIES (via beta API) ===" ∉ out ∧
      "=== INTENT PROFILES (via beta API) ===" ∉ out ∧
      "=== WINDOWS DEPLOYMENT PROFILES (via beta API) ===" ∉ out) ∧
    (∀ beta, show_group_summary db beta fuel name = some out → out ≠ [] →
      "=== APPLICATIONS ===" ∈ out ∧
      "=== DEVICE COMPLIANCE POLICIES ===" ∈ out ∧
      "=== DEVICE CONFIGURATION PROFILES ===" ∈ out) := by
  constructor
  · intro h
    refine ⟨?_, ?_, ?_, ?_, ?_⟩ <;>
      exact header_not_in_beta_false_output db fuel name out h _
        (by decide) (by decide) (by decide) (by decide)
  · intro beta h hne
    rw [show_group_summary] at h
    cases hgid : get_group_id db name with
    | none =>
      simp only [hgid, Option.some.injEq] at h
      exact absurd h.symm hne
    | some gid =>
      simp only [hgid] at h
      by_cases hemp : gid = ""
      · rw [if_pos hemp] at h
        simp only [Option.some.injEq] at h
        exact absurd h.symm hne
      · rw [if_neg hemp] at h
        cases hps : get_parent_groups db.memberships fuel gid with
        | none => simp only [hps] at h; exact Option.noConfusion h
        | some ps =>
          simp only [hps] at h
          cases hcs : get_child_groups db.memberships fuel gid with
          | none => simp only [hcs] at h; exact Option.noConfusion h
          | some cs =>
            simp only [hcs] at h
            cases hmo : member_of_section db fuel gid (dedupFirst ps) with
            | none => simp only [hmo] at h; exact Option.noConfusion h
            | some mo =>
              simp only [hmo] at h
              cases hmem : members_section db fuel gid (dedupFirst cs) with
              | none => simp only [hmem] at h; exact Option.noConfusion h
              | some mem =>
                simp only [hmem, Option.some.injEq] at h
                subst h
                refine ⟨?_, ?_, ?_⟩ <;>
                  simp [app_section, device_compliance_section,
                    device_configuration_profile_section, plain_section]

/-- One-group snapshot used by the gating witness. -/
def gateDB : DB := { emptyDB with groups := [("G1", "Engineering")] }

/-- Witness for `beta_gating` on a concrete snapshot and its concrete
beta-disabled report. -/
theorem beta_gating_witness :
    ("=== SCRIPTS (via beta API) ===" ∉
        ["GROUP NAME:\tEngineering", "ID:\t\tG1", "", "=== MEMBER OF ===", "None", "",
          "=== MEMBERS ===", "None", "", "=== APPLICATIONS ===",
          "(Office, Edge and possibly other 'built-in' apps are not shown, because the beta API is not enabled.)",
          "None", "", "=== DEVICE COMPLIANCE POLICIES ===", "None", "",
          "=== DEVICE CONFIGURATION PROFILES ===", "None", ""] ∧
      "=== CONFIGURATION POLICIES (via beta API) ===" ∉
        ["GROUP NAME:\tEngineering", "ID:\t\tG1", "", "=== MEMBER OF ===", "None", "",
          "=== MEMBERS ===", "None", "", "=== APPLICATIONS ===",
          "(Office, Edge and possibly other 'built-in' apps are not shown, because the beta API is not enabled.)",
          "None", "", "=== DEVICE COMPLIANCE POLICIES ===", "None", "",
          "=== DEVICE CONFIGURATION PROFILES ===", "None", ""] ∧
      "=== GROUP POLICIES (via beta API) ===" ∉
        ["GROUP NAME:\tEngineering", "ID:\t\tG1", "", "=== MEMBER OF ===", "None", "",
          "=== MEMBERS ===", "None", "", "=== APPLICATIONS ===",
          "(Office, Edge and possibly other 'built-in' apps are not shown, because the beta API is not enabled.)",
          "None", "", "=== DEVICE COMPLIANCE POLICIES ===", "None", "",
          "=== DEVICE CONFIGURATION PROFILES ===", "None", ""] ∧
      "=== INTENT PROFILES (via beta API) ===" ∉
        ["GROUP NAME:\tEngineering", "ID:\t\tG1", "", "=== MEMBER OF ===", "None", "",
          "=== MEMBERS ===", "None", "", "=== APPLICATIONS ===",
          "(Office, Edge and possibly other 'built-in' apps are not shown, because the beta API is not enabled.)",
          "None", "", "=== DEVICE COMPLIANCE POLICIES ===", "None", "",
          "=== DEVICE CONFIGURATION PROFILES ===", "None", ""] ∧
      "=== WINDOWS DEPLOYMENT PROFILES (via beta API) ===" ∉
        ["GROUP NAME:\tEngineering", "ID:\t\tG1", "", "=== MEMBER OF ===", "None", "",
          "=== MEMBERS ===", "None", "", "=== APPLICATIONS ===",
          "(Office, Edge and possibly other 'built-in' apps are not shown, because the beta API is not enabled.)",
          "None", "", "=== DEVICE COMPLIANCE POLICIES ===", "None", "",
          "=== DEVICE CONFIGURATION PROFILES ===", "None", ""]) ∧
    ("=== APPLICATIONS ===" ∈
        ["GROUP NAME:\tEngineering", "ID:\t\tG1", "", "=== MEMBER OF ===", "None", "",
          "=== MEMBERS ===", "None", "", "=== APPLICATIONS ===",
          "(Office, Edge and possibly other 'built-in' apps are not shown, because the beta API is not enabled.)",
          "None", "", "=== DEVICE COMPLIANCE POLICIES ===", "None", "",
          "=== DEVICE CONFIGURATION PROFILES ===", "None", ""] ∧
      "=== DEVICE COMPLIANCE POLICIES ===" ∈
        ["GROUP NAME:\tEngineering", "ID:\t\tG1", "", "=== MEMBER OF ===", "None", "",
          "=== MEMBERS ===", "None", "", "=== APPLICATIONS ===",
          "(Office, Edge and possibly other 'built-in' apps are not shown, because the beta API is not enabled.)",
          "None", "", "=== DEVICE COMPLIANCE POLICIES ===", "None", "",
          "=== DEVICE CONFIGURATION PROFILES ===", "None", ""] ∧
      "=== DEVICE CONFIGURATION PROFILES ===" ∈
        ["GROUP NAME:\tEngineering", "ID:\t\tG1", "", "=== MEMBER OF ===", "None", "",
          "=== MEMBERS ===", "None", "", "=== APPLICATIONS ===",
          "(Office, Edge and possibly other 'built-in' apps are not shown, because the beta API is not enabled.)",
          "None", "", "=== DEVICE COMPLIANCE POLICIES ===", "None", "",
          "=== DEVICE CONFIGURATION PROFILES ===", "None", ""]) :=
  ⟨(beta_gating gateDB 1 "Engineering"
      ["GROUP NAME:\tEngineering", "ID:\t\tG1", "", "=== MEMBER OF ===", "None", "",
        "=== MEMBERS ===", "None", "", "=== APPLICATIONS ===",
        "(Office, Edge and possibly other 'built-in' apps are not shown, because the beta API is not enabled.)",
        "None", "", "=== DEVICE COMPLIANCE POLICIES ===", "None", "",
        "=== DEVICE CONFIGURATION PROFILES ===", "None", ""]).1 (by decide),
    (beta_gating gateDB 1 "Engineering"
      ["GROUP NAME:\tEngineering", "ID:\t\tG1", "", "=== MEMBER OF ===", "None", "",
        "=== MEMBERS ===", "None", "", "=== APPLICATIONS ===",
        "(Office, Edge and possibly other 'built-in' apps are not shown, because the beta API is not enabled.)",
        "None", "", "=== DEVICE COMPLIANCE POLICIES ===", "None", "",
        "=== DEVICE CONFIGURATION PROFILES ===", "None", ""]).2 false (by decide) (by decide)⟩
